import Mathlib

/-
Shallow embedding of the requirement-aggregation and compliance-verification
engine of the concrete screening application
(src/backend/compliance_checker.py).

Modelling conventions:
* Python numbers (JSON numbers) are modelled as rationals (Rat); every
  numeric literal in the code and in the scenarios is exactly representable.
* A Python value that may be None is an Option; a dictionary with a fixed
  key schema is a structure whose fields keep the Python key names, an
  optional key being an Option field.
* The Python set of exposure classes is represented canonically by its
  sorted duplicate-free list of elements: its only consumers are
  commutative min/max folds and sorted(list(...)), both functions of the
  underlying set, so the canonical list is a faithful representation.
* float(inf), used only as the permissive seed of max_aggregate_size, is
  modelled by none of Option Rat; min against it is minInf below, and the
  final cleanup (inf becomes None) is then the identity on this field.
* The f-string findings of perform_compliance_check are modelled
  structurally: a clause finding records which clause it is, its PASS/FAIL
  polarity and the two numeric values it renders; the informational
  fallback finding keeps its literal text.  The duck-typed error-or-data
  dictionary of load_regulation_file is the tagged type LoadResult, the
  error constructor standing for the dictionary with the "error" key.
-/

/- A JSON list item as consumed by add_to_set inside get_final_requirements:
   either a string or a nested list (items of any other type are ignored by
   the Python code and are not represented). -/
inductive Item where
  | str (s : String)
  | list (items : List Item)

/- One entry of the regulation table: regulation_data[ec], the five optional
   numeric clauses. -/
structure ClauseReqs where
  max_wc : Option Rat
  min_cement : Option Rat
  strength_min_cyl : Option Rat
  strength_min_cube : Option Rat
  max_aggregate_size : Option Rat
  deriving DecidableEq

/- drawing_reqs["element_specific_reqs"]. -/
structure DrawingElem where
  max_w_c_ratio : Option Rat
  min_cement_content : Option Rat
  strength_class_mpa : Option Rat
  max_aggregate_size : Option Rat
  deriving DecidableEq

/- The drawing_reqs dictionary: a some field stands for the key being
   present with a non-None value. -/
structure DrawingReqs where
  drawing_exposure_classes : Option (List Item)
  element_specific_reqs : Option DrawingElem

/- The user_constraints dictionary; the surrounding Option at use sites
   stands for None or an empty (falsy) dictionary. -/
structure UserConstraints where
  max_w_c_ratio : Option Rat
  min_cement_content : Option Rat
  min_mpa_strength : Option Rat
  max_aggregate_size : Option Rat
  deriving DecidableEq

/- The final_reqs dictionary returned by get_final_requirements and consumed
   by perform_compliance_check (which reads any of the five value keys with
   .get, so each is an Option here). -/
structure Reqs where
  max_wc : Option Rat
  min_cement : Option Rat
  strength_min_cyl : Option Rat
  strength_min_cube : Option Rat
  max_aggregate_size : Option Rat
  source_exposure_classes : List String
  deriving DecidableEq

/- The running final_reqs value inside get_final_requirements, before the
   final cleanup: the first four fields hold plain numbers (their permissive
   seeds are numbers), max_aggregate_size of none stands for float(inf). -/
structure Running where
  max_wc : Rat
  min_cement : Rat
  strength_min_cyl : Rat
  strength_min_cube : Rat
  max_aggregate_size : Option Rat
  deriving DecidableEq

mutual

/- The strings a single item contributes to combined_classes in add_to_set. -/
def Item.strings : Item → List String
  | Item.str s => [s]
  | Item.list l => stringsOfList l

/- add_to_set: collect every string in a nested list of items.  The Python
   code inserts into a set; here we collect the strings in order and
   canonicalize afterwards. -/
def stringsOfList : List Item → List String
  | [] => []
  | i :: t => Item.strings i ++ stringsOfList t

end

/- The canonical representation of the Python set combined_classes, which is
   also sorted(list(combined_classes)). -/
def canonClasses (l : List String) : List String :=
  List.insertionSort (fun a b => a ≤ b) l.dedup

/- The permissive initialization of final_reqs. -/
def seedReqs : Running where
  max_wc := 1
  min_cement := 0
  strength_min_cyl := 0
  strength_min_cube := 0
  max_aggregate_size := none

/- final_reqs[k] = min(final_reqs[k], v) guarded by "if v is not None". -/
def tightenMax (cur : Rat) : Option Rat → Rat
  | none => cur
  | some v => min cur v

/- final_reqs[k] = max(final_reqs[k], v) guarded by "if v is not None". -/
def tightenMin (cur : Rat) : Option Rat → Rat
  | none => cur
  | some v => max cur v

/- min against a running value whose none stands for float(inf). -/
def minInf (cur : Option Rat) (v : Rat) : Option Rat :=
  match cur with
  | none => some v
  | some a => some (min a v)

/- The max_aggregate_size variant of tightenMax, over the inf-seeded field. -/
def tightenMaxInf (cur : Option Rat) : Option Rat → Option Rat
  | none => cur
  | some v => minInf cur v

/- The body of the loop "for ec in combined_classes" folding one exposure
   class of the regulation table into final_reqs; a class absent from the
   table contributes nothing. -/
def foldClass (regulation_data : String → Option ClauseReqs) (r : Running) (ec : String) :
    Running :=
  match regulation_data ec with
  | none => r
  | some reqs =>
      { max_wc := tightenMax r.max_wc reqs.max_wc
        min_cement := tightenMin r.min_cement reqs.min_cement
        strength_min_cyl := tightenMin r.strength_min_cyl reqs.strength_min_cyl
        strength_min_cube := tightenMin r.strength_min_cube reqs.strength_min_cube
        max_aggregate_size := tightenMaxInf r.max_aggregate_size reqs.max_aggregate_size }

/- The "Override with more stringent requirements from DRAWINGS" section. -/
def applyDrawing (r : Running) (drawing_reqs : Option DrawingReqs) : Running :=
  match drawing_reqs with
  | none => r
  | some d =>
      match d.element_specific_reqs with
      | none => r
      | some dwg =>
          { max_wc := tightenMax r.max_wc dwg.max_w_c_ratio
            min_cement := tightenMin r.min_cement dwg.min_cement_content
            strength_min_cyl := tightenMin r.strength_min_cyl dwg.strength_class_mpa
            strength_min_cube := r.strength_min_cube
            max_aggregate_size := tightenMaxInf r.max_aggregate_size dwg.max_aggregate_size }

/- The "Override with more stringent USER constraints" section. -/
def applyUser (r : Running) (user_constraints : Option UserConstraints) : Running :=
  match user_constraints with
  | none => r
  | some u =>
      { max_wc := tightenMax r.max_wc u.max_w_c_ratio
        min_cement := tightenMin r.min_cement u.min_cement_content
        strength_min_cyl := tightenMin r.strength_min_cyl u.min_mpa_strength
        strength_min_cube := r.strength_min_cube
        max_aggregate_size := tightenMaxInf r.max_aggregate_size u.max_aggregate_size }

/- The exposure classes contributed by drawing_reqs["drawing_exposure_classes"]. -/
def drawingClasses (drawing_reqs : Option DrawingReqs) : List String :=
  match drawing_reqs with
  | none => []
  | some d =>
      match d.drawing_exposure_classes with
      | none => []
      | some items => stringsOfList items

/- get_final_requirements: union the exposure classes, fold the regulation
   table, apply drawing then user overrides, clean up the aggregate seed
   (built into the Option representation) and attach the sorted provenance. -/
def get_final_requirements (exposure_classes : List Item)
    (regulation_data : String → Option ClauseReqs)
    (user_constraints : Option UserConstraints := none)
    (drawing_reqs : Option DrawingReqs := none) : Reqs :=
  let combined := canonClasses (stringsOfList exposure_classes ++ drawingClasses drawing_reqs)
  let folded := combined.foldl (foldClass regulation_data) seedReqs
  let afterUser := applyUser (applyDrawing folded drawing_reqs) user_constraints
  { max_wc := some afterUser.max_wc
    min_cement := some afterUser.min_cement
    strength_min_cyl := some afterUser.strength_min_cyl
    strength_min_cube := some afterUser.strength_min_cube
    max_aggregate_size := afterUser.max_aggregate_size
    source_exposure_classes := combined }

/- One entry of the mat_comp list of a product declaration; name and
   percentage are read with .get and defaulted in calculate_epd_metrics. -/
structure Material where
  name : Option String
  percentage : Option Rat
  deriving DecidableEq

/- The EPD JSON structure as read by calculate_epd_metrics. -/
structure EpdData where
  density : Option Rat
  mpa : Option Rat
  max_aggregate_size : Option Rat
  mat_comp : List Material
  deriving DecidableEq

/- The metrics dictionary produced by calculate_epd_metrics. -/
structure Metrics where
  calculated_wc : Option Rat
  cement_content_kg_m3 : Option Rat
  strength_mpa : Option Rat
  max_aggregate_size : Option Rat
  deriving DecidableEq

/- Does the character list begin with the pattern? -/
def startsWithChars : List Char → List Char → Bool
  | [], _ => true
  | _ :: _, [] => false
  | a :: as, b :: bs => a == b && startsWithChars as bs

/- Does the character list contain the pattern as a contiguous run? -/
def hasSubChars (pat : List Char) : List Char → Bool
  | [] => startsWithChars pat []
  | c :: rest => startsWithChars pat (c :: rest) || hasSubChars pat rest

/- The Python substring test: pat in hay. -/
def strContains (hay pat : String) : Bool :=
  hasSubChars pat.toList hay.toList

/- str.lower(): lower-case every character (ASCII case mapping, which covers
   every string these functions are applied to). -/
def lowerStr (s : String) : String :=
  String.mk (s.data.map Char.toLower)

/- The water-name test of the classification loop:
   "water" in name_lower or "agua" in name_lower. -/
def waterNameB (name_lower : String) : Bool :=
  strContains name_lower "water" || strContains name_lower "agua"

/- The cement-name test of the classification loop:
   "cement" in name_lower or "cem " in name_lower. -/
def cementNameB (name_lower : String) : Bool :=
  strContains name_lower "cement" || strContains name_lower "cem "

/- One iteration of the material-classification loop of
   calculate_epd_metrics over the accumulated (water, cement) percentage
   sums: water names take precedence (elif) over cement names. -/
def classifyStep (acc : Rat × Rat) (material : Material) : Rat × Rat :=
  let name_lower := lowerStr (material.name.getD "")
  let percentage := material.percentage.getD 0
  if waterNameB name_lower then (acc.1 + percentage, acc.2)
  else if cementNameB name_lower then (acc.1, acc.2 + percentage)
  else acc

/- calculate_epd_metrics. -/
def calculate_epd_metrics (epd_data : EpdData) : Metrics :=
  let sums := epd_data.mat_comp.foldl classifyStep (0, 0)
  let water_mass_percent := sums.1
  let cement_mass_percent := sums.2
  { calculated_wc :=
      if 0 < cement_mass_percent then some (water_mass_percent / cement_mass_percent)
      else none
    cement_content_kg_m3 :=
      match epd_data.density with
      | none => none
      | some d =>
          if d ≠ 0 ∧ 0 < cement_mass_percent then some (cement_mass_percent / 100 * d)
          else none
    strength_mpa := epd_data.mpa
    max_aggregate_size := epd_data.max_aggregate_size }

/- Which of the four clauses a finding belongs to. -/
inductive ClauseKind where
  | wc
  | cement
  | strength
  | aggregate
  deriving DecidableEq

/- A detail line of the verdict: a clause finding renders its PASS/FAIL
   polarity, the EPD metric value and the required value; info is the
   literal informational fallback line. -/
inductive Finding where
  | clause (kind : ClauseKind) (passed : Bool) (metric : Rat) (required : Rat)
  | info (msg : String)
  deriving DecidableEq

/- Whether a detail line reports a failure (info lines do not). -/
def Finding.passedOf : Finding → Bool
  | Finding.clause _ p _ _ => p
  | Finding.info _ => true

/- The results dictionary of perform_compliance_check. -/
structure Verdict where
  pass : Bool
  details : List Finding
  deriving DecidableEq

/- Check 1: Water/Cement Ratio. -/
def checkWc (epd_metrics : Metrics) (final_reqs : Reqs) : Option Finding :=
  match final_reqs.max_wc, epd_metrics.calculated_wc with
  | some required_wc, some epd_wc =>
      if required_wc < 1 then
        some (Finding.clause ClauseKind.wc (decide (epd_wc ≤ required_wc)) epd_wc required_wc)
      else none
  | _, _ => none

/- Check 2: Minimum Cement Content. -/
def checkCement (epd_metrics : Metrics) (final_reqs : Reqs) : Option Finding :=
  match final_reqs.min_cement, epd_metrics.cement_content_kg_m3 with
  | some required_cement, some epd_cement =>
      if 0 < required_cement then
        some (Finding.clause ClauseKind.cement (decide (required_cement ≤ epd_cement))
          epd_cement required_cement)
      else none
  | _, _ => none

/- Check 3: Strength Class (defaulting to cylinder strength). -/
def checkStrength (epd_metrics : Metrics) (final_reqs : Reqs) : Option Finding :=
  match final_reqs.strength_min_cyl, epd_metrics.strength_mpa with
  | some required_strength, some epd_strength =>
      if 0 < required_strength then
        some (Finding.clause ClauseKind.strength (decide (required_strength ≤ epd_strength))
          epd_strength required_strength)
      else none
  | _, _ => none

/- Check 4: Maximum Aggregate Size. -/
def checkAggregate (epd_metrics : Metrics) (final_reqs : Reqs) : Option Finding :=
  match final_reqs.max_aggregate_size, epd_metrics.max_aggregate_size with
  | some required_dmax, some epd_dmax =>
      some (Finding.clause ClauseKind.aggregate (decide (epd_dmax ≤ required_dmax))
        epd_dmax required_dmax)
  | _, _ => none

/- The informational fallback line appended when no clause was checked. -/
def nothingToCheckMsg : String :=
  "No specific requirements found to check against."

/- perform_compliance_check: run the four checks in order; pass is false as
   soon as one produced finding fails; if nothing was checked, append the
   informational line (pass stays true). -/
def perform_compliance_check (epd_metrics : Metrics) (final_reqs : Reqs) : Verdict :=
  let findings := List.filterMap id
    [checkWc epd_metrics final_reqs, checkCement epd_metrics final_reqs,
     checkStrength epd_metrics final_reqs, checkAggregate epd_metrics final_reqs]
  { pass := findings.all Finding.passedOf
    details := if findings.isEmpty then [Finding.info nothingToCheckMsg] else findings }

/- The state of the regulation file on disk as seen by load_regulation_file:
   missing, present but not valid JSON, or parsed into a table. -/
inductive FileContent where
  | absent
  | malformed
  | parsed (table : String → Option ClauseReqs)

/- The duck-typed return of load_regulation_file as a tagged type: either
   the parsed table or the dictionary carrying the "error" key. -/
inductive LoadResult where
  | table (t : String → Option ClauseReqs)
  | error (msg : String)

/- os.path.join(REGULATIONS_DIR, regulation_name + ".json").  BASE_DIR is
   resolved at runtime from the module location, so the regulations
   directory is a parameter of the model. -/
def regulationFilepath (regulations_dir regulation_name : String) : String :=
  regulations_dir ++ "/" ++ (regulation_name ++ ".json")

/- load_regulation_file over an explicit filesystem: the try/except
   FileNotFoundError/JSONDecodeError branches become the three cases of
   FileContent. -/
def load_regulation_file (fs : String → FileContent)
    (regulations_dir regulation_name : String) : LoadResult :=
  let filepath := regulationFilepath regulations_dir regulation_name
  match fs filepath with
  | FileContent.parsed t => LoadResult.table t
  | FileContent.absent => LoadResult.error ("Regulation file not found: " ++ filepath)
  | FileContent.malformed => LoadResult.error ("Error decoding JSON from " ++ filepath)

/- The base scenario regulation table of the spec: a single entry for the
   exposure class XC4. -/
def table1 : String → Option ClauseReqs := fun ec =>
  if ec = "XC4" then
    some { max_wc := some (1/2), min_cement := some 300, strength_min_cyl := some 30,
           strength_min_cube := some 37, max_aggregate_size := none }
  else none

/- The scenario user constraint: max_w_c_ratio 0.45 and nothing else. -/
def user045 : UserConstraints :=
  { max_w_c_ratio := some (45/100), min_cement_content := none,
    min_mpa_strength := none, max_aggregate_size := none }

/- The scenario product declaration: density 2400, 32 MPa, 7 % water and
   14 % cement. -/
def epd0 : EpdData :=
  { density := some 2400, mpa := some 32, max_aggregate_size := none,
    mat_comp := [{ name := some "Water", percentage := some 7 },
                 { name := some "CEMENT I", percentage := some 14 }] }

/- A product declaration whose cement is named with the "CEM " prefix
   notation and not with the full word "cement". -/
def epdCem : EpdData :=
  { density := some 2400, mpa := none, max_aggregate_size := none,
    mat_comp := [{ name := some "CEM II/A", percentage := some 20 },
                 { name := some "Water", percentage := some 10 }] }

/- A metrics record with every value missing. -/
def mNone : Metrics :=
  { calculated_wc := none, cement_content_kg_m3 := none, strength_mpa := none,
    max_aggregate_size := none }

/- A requirement record with every value missing. -/
def frNone : Reqs :=
  { max_wc := none, min_cement := none, strength_min_cyl := none,
    strength_min_cube := none, max_aggregate_size := none, source_exposure_classes := [] }

/- The sum of the (defaulted) percentage fields of a list of materials. -/
def percentSum (l : List Material) : Rat :=
  (l.map fun material => material.percentage.getD 0).sum

/- Whether the classification loop counts this material as water. -/
def waterMatchB (material : Material) : Bool :=
  waterNameB (lowerStr (material.name.getD ""))

/- Whether the classification loop counts this material as cement: the elif
   makes water names take precedence, and the name test also accepts the
   "cem " notation. -/
def cementMatchCodeB (material : Material) : Bool :=
  !waterMatchB material && cementNameB (lowerStr (material.name.getD ""))

/- The water percentage accumulated by the classification loop. -/
def waterSumL (l : List Material) : Rat :=
  percentSum (l.filter waterMatchB)

/- The cement percentage accumulated by the classification loop. -/
def cementSumL (l : List Material) : Rat :=
  percentSum (l.filter cementMatchCodeB)

/- Modelled from the claim wording, for comparison with the code: the claim
   counts toward the cement sum every entry whose name contains "cement"
   case-insensitively, independently of the water classification and without
   the "cem " notation. -/
def cementMatchClaimB (material : Material) : Bool :=
  strContains (lowerStr (material.name.getD "")) "cement"

/- Modelled from the claim wording: the claimed water/cement ratio, the
   water percentage sum divided by the claimed cement percentage sum, null
   when that cement sum is zero. -/
def spec_calculated_wc (epd_data : EpdData) : Option Rat :=
  if percentSum (epd_data.mat_comp.filter cementMatchClaimB) = 0 then none
  else some (percentSum (epd_data.mat_comp.filter waterMatchB) /
    percentSum (epd_data.mat_comp.filter cementMatchClaimB))

/- Pointwise comparison of optional bounds, a missing bound (none) being
   the most permissive value: optLE x y says x is at least as strict a
   ceiling as y. -/
def optLE : Option Rat → Option Rat → Prop
  | _, none => True
  | none, some _ => False
  | some a, some b => a ≤ b

instance : (x y : Option Rat) → Decidable (optLE x y)
  | none, none => Decidable.isTrue trivial
  | some _, none => Decidable.isTrue trivial
  | none, some _ => Decidable.isFalse fun h => h
  | some a, some b => inferInstanceAs (Decidable (a ≤ b))

/- The regulation-only fold of the spec: get_final_requirements restricted
   to step 1 and step 2, with no drawing and no user source. -/
def regulation_only_fold (exposure_classes : List Item)
    (regulation_data : String → Option ClauseReqs) : Reqs :=
  let combined := canonClasses (stringsOfList exposure_classes)
  let folded := combined.foldl (foldClass regulation_data) seedReqs
  { max_wc := some folded.max_wc
    min_cement := some folded.min_cement
    strength_min_cyl := some folded.strength_min_cyl
    strength_min_cube := some folded.strength_min_cube
    max_aggregate_size := folded.max_aggregate_size
    source_exposure_classes := combined }

/- The user-constraint vector of the monotonic-stringency witness: strictly
   tighter than the XC4 scenario requirements on every field. -/
def userB6 : UserConstraints :=
  { max_w_c_ratio := some (2/5), min_cement_content := some 350,
    min_mpa_strength := some 35, max_aggregate_size := some 16 }

/- r1 is at least as strict a running requirement vector as r2: ceilings no
   larger, floors no smaller. -/
def RunningLE (r1 r2 : Running) : Prop :=
  r1.max_wc ≤ r2.max_wc ∧
  r2.min_cement ≤ r1.min_cement ∧
  r2.strength_min_cyl ≤ r1.strength_min_cyl ∧
  r2.strength_min_cube ≤ r1.strength_min_cube ∧
  optLE r1.max_aggregate_size r2.max_aggregate_size

/- x is at least as strict a Requirement Record as y: every max field no
   larger, every min field no smaller, a missing bound counting as the most
   permissive value. -/
def ReqsStricter (x y : Reqs) : Prop :=
  optLE x.max_wc y.max_wc ∧
  optLE y.min_cement x.min_cement ∧
  optLE y.strength_min_cyl x.strength_min_cyl ∧
  optLE y.strength_min_cube x.strength_min_cube ∧
  optLE x.max_aggregate_size y.max_aggregate_size

/- The drawing-element vector of the monotonic-stringency witness. -/
def elemE6 : DrawingElem :=
  { max_w_c_ratio := some (2/5), min_cement_content := some 350,
    strength_class_mpa := some 35, max_aggregate_size := some 16 }

/- The Requirement Record produced when no source contributes anything: all
   numeric seeds, used to witness the seed-skipping behavior. -/
def frSeed : Reqs :=
  { max_wc := some 1, min_cement := some 0, strength_min_cyl := some 0,
    strength_min_cube := some 0, max_aggregate_size := none,
    source_exposure_classes := [] }

/- A regulation table whose only entry defines only max_wc: every other
   field is left to its permissive seed. -/
def tableWcOnly : String → Option ClauseReqs := fun ec =>
  if ec = "XC4" then
    some { max_wc := some (1/2), min_cement := none, strength_min_cyl := none,
           strength_min_cube := none, max_aggregate_size := none }
  else none

/- get_final_requirements on the base XC4 scenario: helper shared by the
   scenario theorems and witnesses. -/
theorem gfr_xc4_base :
    get_final_requirements [Item.str "XC4"] table1 none none =
      { max_wc := some (1/2), min_cement := some 300, strength_min_cyl := some 30,
        strength_min_cube := some 37, max_aggregate_size := none,
        source_exposure_classes := ["XC4"] } := by
  norm_num [get_final_requirements, canonClasses, stringsOfList, Item.strings,
    drawingClasses, seedReqs, foldClass, tightenMax, tightenMin, tightenMaxInf, minInf,
    applyDrawing, applyUser, table1, min_def, max_def,
    List.foldl, List.dedup, List.insertionSort, List.orderedInsert]

/- get_final_requirements on the XC4 scenario with the 0.45 user override. -/
theorem gfr_xc4_user045 :
    get_final_requirements [Item.str "XC4"] table1 (some user045) none =
      { max_wc := some (45/100), min_cement := some 300, strength_min_cyl := some 30,
        strength_min_cube := some 37, max_aggregate_size := none,
        source_exposure_classes := ["XC4"] } := by
  norm_num [get_final_requirements, canonClasses, stringsOfList, Item.strings,
    drawingClasses, seedReqs, foldClass, tightenMax, tightenMin, tightenMaxInf, minInf,
    applyDrawing, applyUser, table1, user045, min_def, max_def,
    List.foldl, List.dedup, List.insertionSort, List.orderedInsert]

/-- C1: for the exposure-class set XC4 and the scenario regulation table,
with no drawing and no user constraints, get_final_requirements returns
max_wc 0.50, min_cement 300, strength_min_cyl 30, strength_min_cube 37 and a
null max_aggregate_size; adding the user constraint max_w_c_ratio 0.45 makes
the combined max_wc 0.45. -/
theorem final_requirements_xc4_scenario :
    get_final_requirements [Item.str "XC4"] table1 none none =
      { max_wc := some (1/2), min_cement := some 300, strength_min_cyl := some 30,
        strength_min_cube := some 37, max_aggregate_size := none,
        source_exposure_classes := ["XC4"] } ∧
    (get_final_requirements [Item.str "XC4"] table1 (some user045) none).max_wc =
      some (45/100) := by
  refine ⟨gfr_xc4_base, ?_⟩
  rw [gfr_xc4_user045]

/- checkWc produces exactly the wc finding under exactly the Check 1
   conditions. -/
theorem checkWc_eq_some_iff (m : Metrics) (fr : Reqs) (b : Bool) (w r : Rat) :
    checkWc m fr = some (Finding.clause ClauseKind.wc b w r) ↔
      (fr.max_wc = some r ∧ m.calculated_wc = some w ∧ r < 1 ∧ b = decide (w ≤ r)) := by
  unfold checkWc
  rcases hr : fr.max_wc with _ | rv <;> rcases hm : m.calculated_wc with _ | wv <;> simp
  by_cases h : rv < 1 <;> simp [h] <;> aesop

/- checkWc only ever produces wc findings. -/
theorem checkWc_kind (m : Metrics) (fr : Reqs) (k : ClauseKind) (b : Bool) (w r : Rat) :
    checkWc m fr = some (Finding.clause k b w r) → k = ClauseKind.wc := by
  unfold checkWc
  rcases fr.max_wc with _ | rv <;> rcases m.calculated_wc with _ | wv <;> simp
  by_cases h : rv < 1 <;> simp [h] <;> aesop

theorem checkCement_eq_some_iff (m : Metrics) (fr : Reqs) (b : Bool) (w r : Rat) :
    checkCement m fr = some (Finding.clause ClauseKind.cement b w r) ↔
      (fr.min_cement = some r ∧ m.cement_content_kg_m3 = some w ∧ 0 < r ∧
        b = decide (r ≤ w)) := by
  unfold checkCement
  rcases hr : fr.min_cement with _ | rv <;> rcases hm : m.cement_content_kg_m3 with _ | wv <;>
    simp
  by_cases h : 0 < rv <;> simp [h] <;> aesop

theorem checkCement_kind (m : Metrics) (fr : Reqs) (k : ClauseKind) (b : Bool) (w r : Rat) :
    checkCement m fr = some (Finding.clause k b w r) → k = ClauseKind.cement := by
  unfold checkCement
  rcases fr.min_cement with _ | rv <;> rcases m.cement_content_kg_m3 with _ | wv <;> simp
  by_cases h : 0 < rv <;> simp [h] <;> aesop

theorem checkStrength_eq_some_iff (m : Metrics) (fr : Reqs) (b : Bool) (w r : Rat) :
    checkStrength m fr = some (Finding.clause ClauseKind.strength b w r) ↔
      (fr.strength_min_cyl = some r ∧ m.strength_mpa = some w ∧ 0 < r ∧
        b = decide (r ≤ w)) := by
  unfold checkStrength
  rcases hr : fr.strength_min_cyl with _ | rv <;> rcases hm : m.strength_mpa with _ | wv <;>
    simp
  by_cases h : 0 < rv <;> simp [h] <;> aesop

theorem checkStrength_kind (m : Metrics) (fr : Reqs) (k : ClauseKind) (b : Bool) (w r : Rat) :
    checkStrength m fr = some (Finding.clause k b w r) → k = ClauseKind.strength := by
  unfold checkStrength
  rcases fr.strength_min_cyl with _ | rv <;> rcases m.strength_mpa with _ | wv <;> simp
  by_cases h : 0 < rv <;> simp [h] <;> aesop

theorem checkAggregate_eq_some_iff (m : Metrics) (fr : Reqs) (b : Bool) (w r : Rat) :
    checkAggregate m fr = some (Finding.clause ClauseKind.aggregate b w r) ↔
      (fr.max_aggregate_size = some r ∧ m.max_aggregate_size = some w ∧
        b = decide (w ≤ r)) := by
  unfold checkAggregate
  rcases hr : fr.max_aggregate_size with _ | rv <;>
    rcases hm : m.max_aggregate_size with _ | wv <;> simp
  aesop

theorem checkAggregate_kind (m : Metrics) (fr : Reqs) (k : ClauseKind) (b : Bool) (w r : Rat) :
    checkAggregate m fr = some (Finding.clause k b w r) → k = ClauseKind.aggregate := by
  unfold checkAggregate
  rcases fr.max_aggregate_size with _ | rv <;> rcases m.max_aggregate_size with _ | wv <;>
    simp
  aesop

/- a finding is produced iff one of the four checks produced it. -/
theorem clause_mem_findings (m : Metrics) (fr : Reqs) (f : Finding) :
    f ∈ List.filterMap id
        [checkWc m fr, checkCement m fr, checkStrength m fr, checkAggregate m fr] ↔
      (checkWc m fr = some f ∨ checkCement m fr = some f ∨
       checkStrength m fr = some f ∨ checkAggregate m fr = some f) := by
  simp [List.mem_filterMap]
  aesop

/- a clause finding is in the details iff a check produced it: the
   informational fallback line is never a clause finding. -/
theorem clause_mem_details (m : Metrics) (fr : Reqs) (k : ClauseKind) (b : Bool) (w r : Rat) :
    Finding.clause k b w r ∈ (perform_compliance_check m fr).details ↔
      Finding.clause k b w r ∈ List.filterMap id
        [checkWc m fr, checkCement m fr, checkStrength m fr, checkAggregate m fr] := by
  unfold perform_compliance_check
  simp only []
  split
  · rename_i h
    simp_all [List.isEmpty_iff]
  · rfl

/- pass is the conjunction of the produced findings, and the informational
   line counts as passed. -/
theorem pass_eq_all_details (m : Metrics) (fr : Reqs) :
    (perform_compliance_check m fr).pass =
      (perform_compliance_check m fr).details.all Finding.passedOf := by
  unfold perform_compliance_check
  simp only []
  split
  · rename_i h
    simp_all [List.isEmpty_iff, Finding.passedOf]
  · rfl

/-- C2: perform_compliance_check evaluates exactly the four clauses.  A wc
finding appears exactly when both values are present and the requirement is
below the 1.0 marker, and it passes exactly when metric <= requirement; the
cement and strength floors appear exactly when both values are present and
the requirement is above the 0 marker, passing when metric >= requirement
(the strength clause reads the cylinder value); the aggregate ceiling
appears exactly when both values are present, passing when
metric <= requirement.  Each finding renders the metric and requirement
values, pass is the conjunction over the findings actually produced (so
skipped clauses never affect it), and the cube requirement is never read. -/
theorem perform_compliance_check_clause_characterization (m : Metrics) (fr : Reqs) :
    (∀ (b : Bool) (w r : Rat),
        Finding.clause ClauseKind.wc b w r ∈ (perform_compliance_check m fr).details ↔
        (fr.max_wc = some r ∧ m.calculated_wc = some w ∧ r < 1 ∧ b = decide (w ≤ r))) ∧
    (∀ (b : Bool) (w r : Rat),
        Finding.clause ClauseKind.cement b w r ∈ (perform_compliance_check m fr).details ↔
        (fr.min_cement = some r ∧ m.cement_content_kg_m3 = some w ∧ 0 < r ∧
          b = decide (r ≤ w))) ∧
    (∀ (b : Bool) (w r : Rat),
        Finding.clause ClauseKind.strength b w r ∈ (perform_compliance_check m fr).details ↔
        (fr.strength_min_cyl = some r ∧ m.strength_mpa = some w ∧ 0 < r ∧
          b = decide (r ≤ w))) ∧
    (∀ (b : Bool) (w r : Rat),
        Finding.clause ClauseKind.aggregate b w r ∈ (perform_compliance_check m fr).details ↔
        (fr.max_aggregate_size = some r ∧ m.max_aggregate_size = some w ∧
          b = decide (w ≤ r))) ∧
    (perform_compliance_check m fr).pass =
      (perform_compliance_check m fr).details.all Finding.passedOf ∧
    (∀ x, perform_compliance_check m
        { fr with strength_min_cube := x } = perform_compliance_check m fr) := by
  refine ⟨?_, ?_, ?_, ?_, pass_eq_all_details m fr, fun x => rfl⟩
  · intro b w r
    rw [clause_mem_details, clause_mem_findings]
    constructor
    · rintro (h | h | h | h)
      · exact (checkWc_eq_some_iff m fr b w r).1 h
      · exact absurd (checkCement_kind m fr _ b w r h) (by simp)
      · exact absurd (checkStrength_kind m fr _ b w r h) (by simp)
      · exact absurd (checkAggregate_kind m fr _ b w r h) (by simp)
    · intro hc
      exact Or.inl ((checkWc_eq_some_iff m fr b w r).2 hc)
  · intro b w r
    rw [clause_mem_details, clause_mem_findings]
    constructor
    · rintro (h | h | h | h)
      · exact absurd (checkWc_kind m fr _ b w r h) (by simp)
      · exact (checkCement_eq_some_iff m fr b w r).1 h
      · exact absurd (checkStrength_kind m fr _ b w r h) (by simp)
      · exact absurd (checkAggregate_kind m fr _ b w r h) (by simp)
    · intro hc
      exact Or.inr (Or.inl ((checkCement_eq_some_iff m fr b w r).2 hc))
  · intro b w r
    rw [clause_mem_details, clause_mem_findings]
    constructor
    · rintro (h | h | h | h)
      · exact absurd (checkWc_kind m fr _ b w r h) (by simp)
      · exact absurd (checkCement_kind m fr _ b w r h) (by simp)
      · exact (checkStrength_eq_some_iff m fr b w r).1 h
      · exact absurd (checkAggregate_kind m fr _ b w r h) (by simp)
    · intro hc
      exact Or.inr (Or.inr (Or.inl ((checkStrength_eq_some_iff m fr b w r).2 hc)))
  · intro b w r
    rw [clause_mem_details, clause_mem_findings]
    constructor
    · rintro (h | h | h | h)
      · exact absurd (checkWc_kind m fr _ b w r h) (by simp)
      · exact absurd (checkCement_kind m fr _ b w r h) (by simp)
      · exact absurd (checkStrength_kind m fr _ b w r h) (by simp)
      · exact (checkAggregate_eq_some_iff m fr b w r).1 h
    · intro hc
      exact Or.inr (Or.inr (Or.inr ((checkAggregate_eq_some_iff m fr b w r).2 hc)))

/- Check 1 is skipped when a value is missing or the requirement sits at the
   permissive marker. -/
theorem checkWc_eq_none (m : Metrics) (fr : Reqs)
    (h : fr.max_wc = none ∨ m.calculated_wc = none ∨
      ∃ r, fr.max_wc = some r ∧ 1 ≤ r) : checkWc m fr = none := by
  unfold checkWc
  rcases hr : fr.max_wc with _ | rv <;> rcases hm : m.calculated_wc with _ | wv <;> simp
  rcases h with h | h | ⟨r, hr2, hge⟩
  · simp_all
  · simp_all
  · rw [hr] at hr2
    cases hr2
    exact hge

theorem checkCement_eq_none (m : Metrics) (fr : Reqs)
    (h : fr.min_cement = none ∨ m.cement_content_kg_m3 = none ∨
      ∃ r, fr.min_cement = some r ∧ r ≤ 0) : checkCement m fr = none := by
  unfold checkCement
  rcases hr : fr.min_cement with _ | rv <;> rcases hm : m.cement_content_kg_m3 with _ | wv <;>
    simp
  rcases h with h | h | ⟨r, hr2, hle⟩
  · simp_all
  · simp_all
  · rw [hr] at hr2
    cases hr2
    exact hle

theorem checkStrength_eq_none (m : Metrics) (fr : Reqs)
    (h : fr.strength_min_cyl = none ∨ m.strength_mpa = none ∨
      ∃ r, fr.strength_min_cyl = some r ∧ r ≤ 0) : checkStrength m fr = none := by
  unfold checkStrength
  rcases hr : fr.strength_min_cyl with _ | rv <;> rcases hm : m.strength_mpa with _ | wv <;>
    simp
  rcases h with h | h | ⟨r, hr2, hle⟩
  · simp_all
  · simp_all
  · rw [hr] at hr2
    cases hr2
    exact hle

theorem checkAggregate_eq_none (m : Metrics) (fr : Reqs)
    (h : fr.max_aggregate_size = none ∨ m.max_aggregate_size = none) :
    checkAggregate m fr = none := by
  unfold checkAggregate
  rcases hr : fr.max_aggregate_size with _ | rv <;>
    rcases hm : m.max_aggregate_size with _ | wv <;> simp_all

/-- C3: when every clause is skipped (a requirement or metric is missing, or
the requirement sits at its permissive marker), the verdict still passes and
carries exactly the single informational nothing-to-check finding; and no
verdict ever has an empty details list. -/
theorem perform_compliance_check_nothing_to_check (m : Metrics) (fr : Reqs)
    (h1 : fr.max_wc = none ∨ m.calculated_wc = none ∨ ∃ r, fr.max_wc = some r ∧ 1 ≤ r)
    (h2 : fr.min_cement = none ∨ m.cement_content_kg_m3 = none ∨
      ∃ r, fr.min_cement = some r ∧ r ≤ 0)
    (h3 : fr.strength_min_cyl = none ∨ m.strength_mpa = none ∨
      ∃ r, fr.strength_min_cyl = some r ∧ r ≤ 0)
    (h4 : fr.max_aggregate_size = none ∨ m.max_aggregate_size = none) :
    (perform_compliance_check m fr).pass = true ∧
    (perform_compliance_check m fr).details = [Finding.info nothingToCheckMsg] ∧
    ∀ (m2 : Metrics) (fr2 : Reqs), (perform_compliance_check m2 fr2).details ≠ [] := by
  refine ⟨?_, ?_, ?_⟩
  · unfold perform_compliance_check
    simp [checkWc_eq_none m fr h1, checkCement_eq_none m fr h2,
      checkStrength_eq_none m fr h3, checkAggregate_eq_none m fr h4]
  · unfold perform_compliance_check
    simp [checkWc_eq_none m fr h1, checkCement_eq_none m fr h2,
      checkStrength_eq_none m fr h3, checkAggregate_eq_none m fr h4]
  · intro m2 fr2
    unfold perform_compliance_check
    simp only []
    split
    · simp
    · rename_i h
      simpa [List.isEmpty_iff] using h

/-- Witness for C3 at the all-missing metrics and requirements. -/
theorem perform_compliance_check_nothing_to_check_witness :
    (perform_compliance_check mNone frNone).pass = true ∧
    (perform_compliance_check mNone frNone).details = [Finding.info nothingToCheckMsg] := by
  have h := perform_compliance_check_nothing_to_check mNone frNone
    (Or.inl rfl) (Or.inl rfl) (Or.inl rfl) (Or.inl rfl)
  exact ⟨h.1, h.2.1⟩

/-- Counterexample to C4: with no contributing source at all, the returned
record holds the numeric seeds some 1, some 0, some 0, some 0 in its first
four fields instead of the nulls the claim requires; only
max_aggregate_size is re-nulled. -/
theorem seed_fields_not_renulled_cex :
    (get_final_requirements [] (fun _ => none) none none).max_wc = some 1 ∧
    (get_final_requirements [] (fun _ => none) none none).min_cement = some 0 ∧
    (get_final_requirements [] (fun _ => none) none none).strength_min_cyl = some 0 ∧
    (get_final_requirements [] (fun _ => none) none none).strength_min_cube = some 0 ∧
    (get_final_requirements [] (fun _ => none) none none).max_aggregate_size = none :=
  ⟨rfl, rfl, rfl, rfl, rfl⟩

/- Folding classes whose contributing table entries never define max_wc
   leaves the running max_wc unchanged. -/
theorem foldl_wc_untouched (table : String → Option ClauseReqs) :
    ∀ (l : List String) (r : Running),
      (∀ c, c ∈ l → ∀ cr, table c = some cr → cr.max_wc = none) →
      (l.foldl (foldClass table) r).max_wc = r.max_wc := by
  intro l
  induction l with
  | nil => intro r h; rfl
  | cons c t ih =>
      intro r h
      have hc : (foldClass table r c).max_wc = r.max_wc := by
        unfold foldClass
        cases htc : table c with
        | none => rfl
        | some cr => simp [h c (by simp) cr htc, tightenMax]
      rw [List.foldl_cons,
        ih (foldClass table r c) (fun c2 hc2 cr hcr => h c2 (List.mem_cons_of_mem c hc2) cr hcr),
        hc]

theorem foldl_cement_untouched (table : String → Option ClauseReqs) :
    ∀ (l : List String) (r : Running),
      (∀ c, c ∈ l → ∀ cr, table c = some cr → cr.min_cement = none) →
      (l.foldl (foldClass table) r).min_cement = r.min_cement := by
  intro l
  induction l with
  | nil => intro r h; rfl
  | cons c t ih =>
      intro r h
      have hc : (foldClass table r c).min_cement = r.min_cement := by
        unfold foldClass
        cases htc : table c with
        | none => rfl
        | some cr => simp [h c (by simp) cr htc, tightenMin]
      rw [List.foldl_cons,
        ih (foldClass table r c) (fun c2 hc2 cr hcr => h c2 (List.mem_cons_of_mem c hc2) cr hcr),
        hc]

theorem foldl_cyl_untouched (table : String → Option ClauseReqs) :
    ∀ (l : List String) (r : Running),
      (∀ c, c ∈ l → ∀ cr, table c = some cr → cr.strength_min_cyl = none) →
      (l.foldl (foldClass table) r).strength_min_cyl = r.strength_min_cyl := by
  intro l
  induction l with
  | nil => intro r h; rfl
  | cons c t ih =>
      intro r h
      have hc : (foldClass table r c).strength_min_cyl = r.strength_min_cyl := by
        unfold foldClass
        cases htc : table c with
        | none => rfl
        | some cr => simp [h c (by simp) cr htc, tightenMin]
      rw [List.foldl_cons,
        ih (foldClass table r c) (fun c2 hc2 cr hcr => h c2 (List.mem_cons_of_mem c hc2) cr hcr),
        hc]

theorem foldl_cube_untouched (table : String → Option ClauseReqs) :
    ∀ (l : List String) (r : Running),
      (∀ c, c ∈ l → ∀ cr, table c = some cr → cr.strength_min_cube = none) →
      (l.foldl (foldClass table) r).strength_min_cube = r.strength_min_cube := by
  intro l
  induction l with
  | nil => intro r h; rfl
  | cons c t ih =>
      intro r h
      have hc : (foldClass table r c).strength_min_cube = r.strength_min_cube := by
        unfold foldClass
        cases htc : table c with
        | none => rfl
        | some cr => simp [h c (by simp) cr htc, tightenMin]
      rw [List.foldl_cons,
        ih (foldClass table r c) (fun c2 hc2 cr hcr => h c2 (List.mem_cons_of_mem c hc2) cr hcr),
        hc]

theorem foldl_agg_untouched (table : String → Option ClauseReqs) :
    ∀ (l : List String) (r : Running),
      (∀ c, c ∈ l → ∀ cr, table c = some cr → cr.max_aggregate_size = none) →
      (l.foldl (foldClass table) r).max_aggregate_size = r.max_aggregate_size := by
  intro l
  induction l with
  | nil => intro r h; rfl
  | cons c t ih =>
      intro r h
      have hc : (foldClass table r c).max_aggregate_size = r.max_aggregate_size := by
        unfold foldClass
        cases htc : table c with
        | none => rfl
        | some cr => simp [h c (by simp) cr htc, tightenMaxInf]
      rw [List.foldl_cons,
        ih (foldClass table r c) (fun c2 hc2 cr hcr => h c2 (List.mem_cons_of_mem c hc2) cr hcr),
        hc]

/- A drawing source that never defines a given clause leaves that running
   field unchanged, clause by clause. -/
theorem applyDrawing_wc_untouched (r : Running) (d : Option DrawingReqs)
    (h : ∀ dr e, d = some dr → dr.element_specific_reqs = some e → e.max_w_c_ratio = none) :
    (applyDrawing r d).max_wc = r.max_wc := by
  cases d with
  | none => rfl
  | some dr =>
      cases dr with
      | mk dc de =>
          cases de with
          | none => rfl
          | some e => simp [applyDrawing, h ⟨dc, some e⟩ e rfl rfl, tightenMax]

theorem applyDrawing_cement_untouched (r : Running) (d : Option DrawingReqs)
    (h : ∀ dr e, d = some dr → dr.element_specific_reqs = some e →
      e.min_cement_content = none) :
    (applyDrawing r d).min_cement = r.min_cement := by
  cases d with
  | none => rfl
  | some dr =>
      cases dr with
      | mk dc de =>
          cases de with
          | none => rfl
          | some e => simp [applyDrawing, h ⟨dc, some e⟩ e rfl rfl, tightenMin]

theorem applyDrawing_cyl_untouched (r : Running) (d : Option DrawingReqs)
    (h : ∀ dr e, d = some dr → dr.element_specific_reqs = some e →
      e.strength_class_mpa = none) :
    (applyDrawing r d).strength_min_cyl = r.strength_min_cyl := by
  cases d with
  | none => rfl
  | some dr =>
      cases dr with
      | mk dc de =>
          cases de with
          | none => rfl
          | some e => simp [applyDrawing, h ⟨dc, some e⟩ e rfl rfl, tightenMin]

theorem applyDrawing_agg_untouched (r : Running) (d : Option DrawingReqs)
    (h : ∀ dr e, d = some dr → dr.element_specific_reqs = some e →
      e.max_aggregate_size = none) :
    (applyDrawing r d).max_aggregate_size = r.max_aggregate_size := by
  cases d with
  | none => rfl
  | some dr =>
      cases dr with
      | mk dc de =>
          cases de with
          | none => rfl
          | some e => simp [applyDrawing, h ⟨dc, some e⟩ e rfl rfl, tightenMaxInf]

/- The drawing override never writes the cube field at all. -/
theorem applyDrawing_cube (r : Running) (d : Option DrawingReqs) :
    (applyDrawing r d).strength_min_cube = r.strength_min_cube := by
  cases d with
  | none => rfl
  | some dr =>
      cases dr with
      | mk dc de => cases de <;> rfl

/- A user source that never states a given constraint leaves that running
   field unchanged, clause by clause. -/
theorem applyUser_wc_untouched (r : Running) (u : Option UserConstraints)
    (h : ∀ uc, u = some uc → uc.max_w_c_ratio = none) :
    (applyUser r u).max_wc = r.max_wc := by
  cases u with
  | none => rfl
  | some uc => simp [applyUser, h uc rfl, tightenMax]

theorem applyUser_cement_untouched (r : Running) (u : Option UserConstraints)
    (h : ∀ uc, u = some uc → uc.min_cement_content = none) :
    (applyUser r u).min_cement = r.min_cement := by
  cases u with
  | none => rfl
  | some uc => simp [applyUser, h uc rfl, tightenMin]

theorem applyUser_cyl_untouched (r : Running) (u : Option UserConstraints)
    (h : ∀ uc, u = some uc → uc.min_mpa_strength = none) :
    (applyUser r u).strength_min_cyl = r.strength_min_cyl := by
  cases u with
  | none => rfl
  | some uc => simp [applyUser, h uc rfl, tightenMin]

theorem applyUser_agg_untouched (r : Running) (u : Option UserConstraints)
    (h : ∀ uc, u = some uc → uc.max_aggregate_size = none) :
    (applyUser r u).max_aggregate_size = r.max_aggregate_size := by
  cases u with
  | none => rfl
  | some uc => simp [applyUser, h uc rfl, tightenMaxInf]

/- The user override never writes the cube field at all. -/
theorem applyUser_cube (r : Running) (u : Option UserConstraints) :
    (applyUser r u).strength_min_cube = r.strength_min_cube := by
  cases u <;> rfl

/-- C4 (amended): for every combination of sources, each field that no
source defines -- no regulation entry of a contributing exposure class, no
drawing clause, no user constraint -- comes back at its numeric permissive
seed: max_wc at some 1, min_cement, strength_min_cyl and strength_min_cube
at some 0; only max_aggregate_size is re-nulled, coming back as none.  The
evaluator compensates: any record holding the seed values in those fields
is treated as fully unconstrained, every clause skipped and the verdict a
pass with only the informational finding. -/
theorem untouched_fields_keep_seed (classes : List Item)
    (table : String → Option ClauseReqs) (u : Option UserConstraints)
    (d : Option DrawingReqs) :
    ((∀ c, c ∈ canonClasses (stringsOfList classes ++ drawingClasses d) →
        ∀ cr, table c = some cr → cr.max_wc = none) →
     (∀ dr e, d = some dr → dr.element_specific_reqs = some e → e.max_w_c_ratio = none) →
     (∀ uc, u = some uc → uc.max_w_c_ratio = none) →
     (get_final_requirements classes table u d).max_wc = some 1) ∧
    ((∀ c, c ∈ canonClasses (stringsOfList classes ++ drawingClasses d) →
        ∀ cr, table c = some cr → cr.min_cement = none) →
     (∀ dr e, d = some dr → dr.element_specific_reqs = some e →
       e.min_cement_content = none) →
     (∀ uc, u = some uc → uc.min_cement_content = none) →
     (get_final_requirements classes table u d).min_cement = some 0) ∧
    ((∀ c, c ∈ canonClasses (stringsOfList classes ++ drawingClasses d) →
        ∀ cr, table c = some cr → cr.strength_min_cyl = none) →
     (∀ dr e, d = some dr → dr.element_specific_reqs = some e →
       e.strength_class_mpa = none) →
     (∀ uc, u = some uc → uc.min_mpa_strength = none) →
     (get_final_requirements classes table u d).strength_min_cyl = some 0) ∧
    ((∀ c, c ∈ canonClasses (stringsOfList classes ++ drawingClasses d) →
        ∀ cr, table c = some cr → cr.strength_min_cube = none) →
     (get_final_requirements classes table u d).strength_min_cube = some 0) ∧
    ((∀ c, c ∈ canonClasses (stringsOfList classes ++ drawingClasses d) →
        ∀ cr, table c = some cr → cr.max_aggregate_size = none) →
     (∀ dr e, d = some dr → dr.element_specific_reqs = some e →
       e.max_aggregate_size = none) →
     (∀ uc, u = some uc → uc.max_aggregate_size = none) →
     (get_final_requirements classes table u d).max_aggregate_size = none) ∧
    (∀ (m : Metrics) (fr : Reqs), fr.max_wc = some 1 → fr.min_cement = some 0 →
      fr.strength_min_cyl = some 0 → fr.max_aggregate_size = none →
      (perform_compliance_check m fr).pass = true ∧
      (perform_compliance_check m fr).details = [Finding.info nothingToCheckMsg]) := by
  refine ⟨?_, ?_, ?_, ?_, ?_, ?_⟩
  · intro h1 h2 h3
    show some (applyUser (applyDrawing
      ((canonClasses (stringsOfList classes ++ drawingClasses d)).foldl
        (foldClass table) seedReqs) d) u).max_wc = some 1
    rw [applyUser_wc_untouched _ u h3, applyDrawing_wc_untouched _ d h2,
      foldl_wc_untouched table _ seedReqs h1]
    rfl
  · intro h1 h2 h3
    show some (applyUser (applyDrawing
      ((canonClasses (stringsOfList classes ++ drawingClasses d)).foldl
        (foldClass table) seedReqs) d) u).min_cement = some 0
    rw [applyUser_cement_untouched _ u h3, applyDrawing_cement_untouched _ d h2,
      foldl_cement_untouched table _ seedReqs h1]
    rfl
  · intro h1 h2 h3
    show some (applyUser (applyDrawing
      ((canonClasses (stringsOfList classes ++ drawingClasses d)).foldl
        (foldClass table) seedReqs) d) u).strength_min_cyl = some 0
    rw [applyUser_cyl_untouched _ u h3, applyDrawing_cyl_untouched _ d h2,
      foldl_cyl_untouched table _ seedReqs h1]
    rfl
  · intro h1
    show some (applyUser (applyDrawing
      ((canonClasses (stringsOfList classes ++ drawingClasses d)).foldl
        (foldClass table) seedReqs) d) u).strength_min_cube = some 0
    rw [applyUser_cube, applyDrawing_cube, foldl_cube_untouched table _ seedReqs h1]
    rfl
  · intro h1 h2 h3
    show (applyUser (applyDrawing
      ((canonClasses (stringsOfList classes ++ drawingClasses d)).foldl
        (foldClass table) seedReqs) d) u).max_aggregate_size = none
    rw [applyUser_agg_untouched _ u h3, applyDrawing_agg_untouched _ d h2,
      foldl_agg_untouched table _ seedReqs h1]
    rfl
  · intro m fr hwc hcem hcyl hagg
    have e1 : checkWc m fr = none :=
      checkWc_eq_none m fr (Or.inr (Or.inr ⟨1, hwc, le_refl 1⟩))
    have e2 : checkCement m fr = none :=
      checkCement_eq_none m fr (Or.inr (Or.inr ⟨0, hcem, le_refl 0⟩))
    have e3 : checkStrength m fr = none :=
      checkStrength_eq_none m fr (Or.inr (Or.inr ⟨0, hcyl, le_refl 0⟩))
    have e4 : checkAggregate m fr = none := checkAggregate_eq_none m fr (Or.inl hagg)
    constructor
    · unfold perform_compliance_check
      simp [e1, e2, e3, e4]
    · unfold perform_compliance_check
      simp [e1, e2, e3, e4]

/-- Witness for the amended C4: a table entry defining only max_wc leaves
min_cement, the strengths and the aggregate size untouched; an empty table
keeps max_wc at some 1; and the all-seed record yields the pass verdict
with the informational finding. -/
theorem untouched_fields_keep_seed_witness :
    (get_final_requirements [Item.str "XC4"] tableWcOnly none none).min_cement = some 0 ∧
    (get_final_requirements [Item.str "XC4"] tableWcOnly none none).strength_min_cyl =
      some 0 ∧
    (get_final_requirements [Item.str "XC4"] tableWcOnly none none).strength_min_cube =
      some 0 ∧
    (get_final_requirements [Item.str "XC4"] tableWcOnly none none).max_aggregate_size =
      none ∧
    (get_final_requirements [] (fun _ => none) none none).max_wc = some 1 ∧
    (perform_compliance_check mNone frSeed).pass = true ∧
    (perform_compliance_check mNone frSeed).details = [Finding.info nothingToCheckMsg] := by
  have T := untouched_fields_keep_seed [Item.str "XC4"] tableWcOnly none none
  have E := untouched_fields_keep_seed [] (fun _ => none) none none
  have htab : ∀ c, c ∈ canonClasses (stringsOfList [Item.str "XC4"] ++
      drawingClasses none) → ∀ cr, tableWcOnly c = some cr →
      cr.min_cement = none ∧ cr.strength_min_cyl = none ∧ cr.strength_min_cube = none ∧
      cr.max_aggregate_size = none := by
    intro c hc cr hcr
    simp only [tableWcOnly] at hcr
    split at hcr
    · cases hcr
      exact ⟨rfl, rfl, rfl, rfl⟩
    · cases hcr
  have hdr : ∀ (dr : DrawingReqs) (e : DrawingElem), (none : Option DrawingReqs) = some dr →
      dr.element_specific_reqs = some e → e.min_cement_content = none ∧
      e.strength_class_mpa = none ∧ e.max_aggregate_size = none ∧ e.max_w_c_ratio = none :=
    fun dr e h1 h2 => Option.noConfusion h1
  have hus : ∀ uc : UserConstraints, (none : Option UserConstraints) = some uc →
      uc.min_cement_content = none ∧ uc.min_mpa_strength = none ∧
      uc.max_aggregate_size = none ∧ uc.max_w_c_ratio = none :=
    fun uc h => Option.noConfusion h
  have hC := T.2.2.2.2.2 mNone frSeed rfl rfl rfl rfl
  exact ⟨T.2.1 (fun c hc cr hcr => (htab c hc cr hcr).1)
          (fun dr e h1 h2 => (hdr dr e h1 h2).1) (fun uc h => (hus uc h).1),
    T.2.2.1 (fun c hc cr hcr => (htab c hc cr hcr).2.1)
          (fun dr e h1 h2 => (hdr dr e h1 h2).2.1) (fun uc h => (hus uc h).2.1),
    T.2.2.2.1 (fun c hc cr hcr => (htab c hc cr hcr).2.2.1),
    T.2.2.2.2.1 (fun c hc cr hcr => (htab c hc cr hcr).2.2.2)
          (fun dr e h1 h2 => (hdr dr e h1 h2).2.2.1) (fun uc h => (hus uc h).2.2.1),
    E.1 (fun c hc cr hcr => Option.noConfusion hcr)
          (fun dr e h1 h2 => Option.noConfusion h1) (fun uc h => Option.noConfusion h),
    hC.1, hC.2⟩

/- The classification loop computes the water and cement percentage sums of
   the materials it classifies as water and as cement. -/
theorem classify_foldl (l : List Material) :
    ∀ a b : Rat, l.foldl classifyStep (a, b) = (a + waterSumL l, b + cementSumL l) := by
  induction l with
  | nil => intro a b; simp [waterSumL, cementSumL, percentSum]
  | cons mt t ih =>
    intro a b
    cases hw : waterNameB (lowerStr (mt.name.getD "")) <;>
      cases hc : cementNameB (lowerStr (mt.name.getD "")) <;>
      simp [List.foldl, classifyStep, hw, hc, ih, waterSumL, cementSumL, percentSum,
        List.filter, waterMatchB, cementMatchCodeB, add_assoc]

/- The derived metrics of the scenario product declaration. -/
theorem epd0_metrics :
    calculate_epd_metrics epd0 =
      { calculated_wc := some (1/2), cement_content_kg_m3 := some 336,
        strength_mpa := some 32, max_aggregate_size := none } := by
  have h1 : waterNameB (lowerStr "Water") = true := by decide
  have h2 : waterNameB (lowerStr "CEMENT I") = false := by decide
  have h3 : cementNameB (lowerStr "CEMENT I") = true := by decide
  norm_num [calculate_epd_metrics, classifyStep, List.foldl, epd0, h1, h2, h3]

/-- Counterexample to C5: for a declaration naming its cement "CEM II/A",
the code derives calculated_wc 0.5 (the "cem " notation matches), while the
claimed formula has a cement sum of 0 ("cement" is not a substring) and so
demands null; the claimed equality fails. -/
theorem calculated_wc_spec_mismatch_cex :
    (calculate_epd_metrics epdCem).calculated_wc = some (1/2) ∧
    spec_calculated_wc epdCem = none ∧
    (calculate_epd_metrics epdCem).calculated_wc ≠ spec_calculated_wc epdCem := by
  have hw1 : waterNameB (lowerStr "CEM II/A") = false := by decide
  have hc1 : cementNameB (lowerStr "CEM II/A") = true := by decide
  have hw2 : waterNameB (lowerStr "Water") = true := by decide
  have hs1 : cementMatchClaimB { name := some "CEM II/A", percentage := some 20 } = false := by
    decide
  have hs2 : cementMatchClaimB { name := some "Water", percentage := some 10 } = false := by
    decide
  have e1 : (calculate_epd_metrics epdCem).calculated_wc = some (1/2) := by
    norm_num [calculate_epd_metrics, classifyStep, List.foldl, epdCem, hw1, hc1, hw2]
  have e2 : spec_calculated_wc epdCem = none := by
    simp [spec_calculated_wc, epdCem, hs1, hs2, percentSum]
  refine ⟨e1, e2, ?_⟩
  rw [e1, e2]
  simp

/-- C5 (amended): calculated_wc is the water percentage sum (names
containing "water" or "agua" case-insensitively) divided by the cement
percentage sum, where the cement sum counts entries not already classified
as water whose name contains "cement" or "cem " case-insensitively, and is
null when that cement sum is not positive; cement_content_kg_m3 is
(cement sum / 100) * density, null unless the density is present and
non-zero and the cement sum positive; strength and aggregate size pass
through.  The scenario holds as claimed: the scenario declaration yields
calculated_wc 0.5 and cement content 336, and against the user-override
requirements the verdict is wc FAIL, cement PASS, strength PASS, overall
pass false. -/
theorem epd_metrics_amended :
    (∀ epd_data : EpdData,
      (calculate_epd_metrics epd_data).calculated_wc =
        (if 0 < cementSumL epd_data.mat_comp then
          some (waterSumL epd_data.mat_comp / cementSumL epd_data.mat_comp) else none) ∧
      (calculate_epd_metrics epd_data).cement_content_kg_m3 =
        (match epd_data.density with
         | none => none
         | some d =>
            if d ≠ 0 ∧ 0 < cementSumL epd_data.mat_comp then
              some (cementSumL epd_data.mat_comp / 100 * d)
            else none) ∧
      (calculate_epd_metrics epd_data).strength_mpa = epd_data.mpa ∧
      (calculate_epd_metrics epd_data).max_aggregate_size = epd_data.max_aggregate_size) ∧
    calculate_epd_metrics epd0 =
      { calculated_wc := some (1/2), cement_content_kg_m3 := some 336,
        strength_mpa := some 32, max_aggregate_size := none } ∧
    perform_compliance_check (calculate_epd_metrics epd0)
      (get_final_requirements [Item.str "XC4"] table1 (some user045) none) =
      { pass := false,
        details := [Finding.clause ClauseKind.wc false (1/2) (45/100),
                    Finding.clause ClauseKind.cement true 336 300,
                    Finding.clause ClauseKind.strength true 32 30] } := by
  refine ⟨?_, epd0_metrics, ?_⟩
  · intro epd_data
    unfold calculate_epd_metrics
    rw [classify_foldl]
    simp
  · rw [epd0_metrics, gfr_xc4_user045]
    norm_num [perform_compliance_check, checkWc, checkCement, checkStrength, checkAggregate,
      List.filterMap, Finding.passedOf, List.all, decide_eq_true_eq, decide_eq_false_iff_not]

theorem optLE_refl (x : Option Rat) : optLE x x := by
  cases x <;> simp [optLE]

theorem optLE_trans {x y z : Option Rat} (h1 : optLE x y) (h2 : optLE y z) : optLE x z := by
  cases x <;> cases y <;> cases z <;> simp_all [optLE]
  exact le_trans h1 h2

theorem RunningLE_refl (r : Running) : RunningLE r r :=
  ⟨le_refl _, le_refl _, le_refl _, le_refl _, optLE_refl _⟩

theorem RunningLE_trans {r1 r2 r3 : Running} (h1 : RunningLE r1 r2) (h2 : RunningLE r2 r3) :
    RunningLE r1 r3 :=
  ⟨le_trans h1.1 h2.1, le_trans h2.2.1 h1.2.1, le_trans h2.2.2.1 h1.2.2.1,
   le_trans h2.2.2.2.1 h1.2.2.2.1, optLE_trans h1.2.2.2.2 h2.2.2.2.2⟩

theorem tightenMax_le (cur : Rat) (x : Option Rat) : tightenMax cur x ≤ cur := by
  cases x <;> simp [tightenMax, min_le_left]

theorem le_tightenMin (cur : Rat) (x : Option Rat) : cur ≤ tightenMin cur x := by
  cases x <;> simp [tightenMin, le_max_left]

theorem tightenMaxInf_optLE (cur : Option Rat) (x : Option Rat) :
    optLE (tightenMaxInf cur x) cur := by
  cases x with
  | none => exact optLE_refl cur
  | some v => cases cur <;> simp [tightenMaxInf, minInf, optLE, min_le_left]

theorem foldClass_stricter (table : String → Option ClauseReqs) (r : Running) (ec : String) :
    RunningLE (foldClass table r ec) r := by
  unfold foldClass
  cases table ec with
  | none => exact RunningLE_refl r
  | some reqs =>
      exact ⟨tightenMax_le _ _, le_tightenMin _ _, le_tightenMin _ _, le_tightenMin _ _,
        tightenMaxInf_optLE _ _⟩

theorem foldl_foldClass_stricter (table : String → Option ClauseReqs) :
    ∀ (l : List String) (r : Running), RunningLE (l.foldl (foldClass table) r) r := by
  intro l
  induction l with
  | nil => intro r; exact RunningLE_refl r
  | cons c t ih =>
      intro r
      exact RunningLE_trans (ih (foldClass table r c)) (foldClass_stricter table r c)

theorem applyDrawing_stricter (r : Running) (d : Option DrawingReqs) :
    RunningLE (applyDrawing r d) r := by
  cases d with
  | none => exact RunningLE_refl r
  | some dr =>
      cases dr with
      | mk dc de =>
          cases de with
          | none => exact RunningLE_refl r
          | some dwg =>
              exact ⟨tightenMax_le _ _, le_tightenMin _ _, le_tightenMin _ _, le_refl _,
                tightenMaxInf_optLE _ _⟩

theorem applyUser_stricter (r : Running) (u : Option UserConstraints) :
    RunningLE (applyUser r u) r := by
  unfold applyUser
  cases u with
  | none => exact RunningLE_refl r
  | some uc =>
      exact ⟨tightenMax_le _ _, le_tightenMin _ _, le_tightenMin _ _, le_refl _,
        tightenMaxInf_optLE _ _⟩

theorem tightenMax_mono {a b : Rat} (h : a ≤ b) (x : Option Rat) :
    tightenMax a x ≤ tightenMax b x := by
  cases x with
  | none => exact h
  | some v => exact min_le_min h (le_refl v)

theorem tightenMin_mono {a b : Rat} (h : a ≤ b) (x : Option Rat) :
    tightenMin a x ≤ tightenMin b x := by
  cases x with
  | none => exact h
  | some v => exact max_le_max h (le_refl v)

theorem tightenMaxInf_mono {a b : Option Rat} (h : optLE a b) (x : Option Rat) :
    optLE (tightenMaxInf a x) (tightenMaxInf b x) := by
  cases x with
  | none => exact h
  | some v =>
      cases a with
      | none =>
          cases b with
          | none => exact le_refl v
          | some bv => exact h.elim
      | some av =>
          cases b with
          | none => exact min_le_right av v
          | some bv => exact min_le_min h (le_refl v)

theorem applyUser_mono (u : Option UserConstraints) {r1 r2 : Running}
    (h : RunningLE r1 r2) : RunningLE (applyUser r1 u) (applyUser r2 u) := by
  cases u with
  | none => exact h
  | some uc =>
      exact ⟨tightenMax_mono h.1 _, tightenMin_mono h.2.1 _, tightenMin_mono h.2.2.1 _,
        h.2.2.2.1, tightenMaxInf_mono h.2.2.2.2 _⟩

/-- C6: a user or drawing Clause Vector whose every defined field is at
least as strict as the result computed without it, added as an additional
override source, never yields a less strict Requirement Record: every max
field stays no larger and every min field no smaller than without it. -/
theorem combine_monotonic_stringency (classes : List Item)
    (table : String → Option ClauseReqs) (d : Option DrawingReqs)
    (u : Option UserConstraints) (B : UserConstraints) (E : DrawingElem)
    (hwc : ∀ b, B.max_w_c_ratio = some b →
      optLE (some b) (get_final_requirements classes table none d).max_wc)
    (hcem : ∀ b, B.min_cement_content = some b →
      optLE (get_final_requirements classes table none d).min_cement (some b))
    (hstr : ∀ b, B.min_mpa_strength = some b →
      optLE (get_final_requirements classes table none d).strength_min_cyl (some b))
    (hagg : ∀ b, B.max_aggregate_size = some b →
      optLE (some b) (get_final_requirements classes table none d).max_aggregate_size)
    (hwc2 : ∀ b, E.max_w_c_ratio = some b →
      optLE (some b) (get_final_requirements classes table u none).max_wc)
    (hcem2 : ∀ b, E.min_cement_content = some b →
      optLE (get_final_requirements classes table u none).min_cement (some b))
    (hstr2 : ∀ b, E.strength_class_mpa = some b →
      optLE (get_final_requirements classes table u none).strength_min_cyl (some b))
    (hagg2 : ∀ b, E.max_aggregate_size = some b →
      optLE (some b) (get_final_requirements classes table u none).max_aggregate_size) :
    ReqsStricter (get_final_requirements classes table (some B) d)
      (get_final_requirements classes table none d) ∧
    ReqsStricter
      (get_final_requirements classes table u
        (some { drawing_exposure_classes := none, element_specific_reqs := some E }))
      (get_final_requirements classes table u none) := by
  constructor
  · have h := applyUser_stricter
      (applyDrawing ((canonClasses (stringsOfList classes ++ drawingClasses d)).foldl
        (foldClass table) seedReqs) d) (some B)
    exact ⟨h.1, h.2.1, h.2.2.1, h.2.2.2.1, h.2.2.2.2⟩
  · have hd := applyDrawing_stricter
      ((canonClasses (stringsOfList classes ++ drawingClasses none)).foldl
        (foldClass table) seedReqs)
      (some { drawing_exposure_classes := none, element_specific_reqs := some E })
    have h := applyUser_mono u hd
    exact ⟨h.1, h.2.1, h.2.2.1, h.2.2.2.1, h.2.2.2.2⟩

/-- Witness for C6: the strictly tighter user vector userB6 and drawing
vector elemE6 against the XC4 scenario requirements. -/
theorem combine_monotonic_stringency_witness :
    ReqsStricter (get_final_requirements [Item.str "XC4"] table1 (some userB6) none)
      (get_final_requirements [Item.str "XC4"] table1 none none) ∧
    ReqsStricter
      (get_final_requirements [Item.str "XC4"] table1 none
        (some { drawing_exposure_classes := none, element_specific_reqs := some elemE6 }))
      (get_final_requirements [Item.str "XC4"] table1 none none) := by
  apply combine_monotonic_stringency [Item.str "XC4"] table1 none none userB6 elemE6
  · intro b hb
    cases hb
    rw [gfr_xc4_base]
    norm_num [optLE]
  · intro b hb
    cases hb
    rw [gfr_xc4_base]
    norm_num [optLE]
  · intro b hb
    cases hb
    rw [gfr_xc4_base]
    norm_num [optLE]
  · intro b hb
    cases hb
    rw [gfr_xc4_base]
    norm_num [optLE]
  · intro b hb
    cases hb
    rw [gfr_xc4_base]
    norm_num [optLE]
  · intro b hb
    cases hb
    rw [gfr_xc4_base]
    norm_num [optLE]
  · intro b hb
    cases hb
    rw [gfr_xc4_base]
    norm_num [optLE]
  · intro b hb
    cases hb
    rw [gfr_xc4_base]
    norm_num [optLE]

/-- C7: with no user constraints and no drawing requirements,
get_final_requirements is exactly the regulation-only fold; and an all-null
user record, an all-null drawing element record, or a drawing record with
no element requirements at all, each added as an override source, is a
no-op: null fields never participate in and never weaken a combined
bound. -/
theorem combine_null_identity (classes : List Item)
    (table : String → Option ClauseReqs) (u : Option UserConstraints)
    (d : Option DrawingReqs) :
    get_final_requirements classes table none none = regulation_only_fold classes table ∧
    get_final_requirements classes table
        (some { max_w_c_ratio := none, min_cement_content := none,
                min_mpa_strength := none, max_aggregate_size := none }) d =
      get_final_requirements classes table none d ∧
    get_final_requirements classes table u
        (some { drawing_exposure_classes := none,
                element_specific_reqs := some
                  { max_w_c_ratio := none, min_cement_content := none,
                    strength_class_mpa := none, max_aggregate_size := none } }) =
      get_final_requirements classes table u none ∧
    get_final_requirements classes table u
        (some { drawing_exposure_classes := none, element_specific_reqs := none }) =
      get_final_requirements classes table u none := by
  refine ⟨?_, rfl, rfl, rfl⟩
  unfold get_final_requirements regulation_only_fold
  simp [drawingClasses, applyDrawing, applyUser]

/- stringsOfList distributes over list append. -/
theorem stringsOfList_append (l1 l2 : List Item) :
    stringsOfList (l1 ++ l2) = stringsOfList l1 ++ stringsOfList l2 := by
  induction l1 with
  | nil => simp [stringsOfList]
  | cons i t ih => simp [stringsOfList, ih, List.append_assoc]

/- Two class lists with the same members canonicalize identically. -/
theorem canonClasses_eq_of_mem (l1 l2 : List String) (h : ∀ s, s ∈ l1 ↔ s ∈ l2) :
    canonClasses l1 = canonClasses l2 := by
  refine List.eq_of_perm_of_sorted ?_
    (List.sorted_insertionSort _ _) (List.sorted_insertionSort _ _)
  exact (List.perm_insertionSort _ _).trans
    (((List.perm_ext_iff_of_nodup (List.nodup_dedup l1) (List.nodup_dedup l2)).2
      (by simp [h])).trans (List.perm_insertionSort _ _).symm)

/- get_final_requirements only sees the class lists through their member
   sets. -/
theorem gfr_classes_congr (c1 c2 : List Item) (table : String → Option ClauseReqs)
    (u : Option UserConstraints) (d : Option DrawingReqs)
    (h : ∀ s, s ∈ stringsOfList c1 ↔ s ∈ stringsOfList c2) :
    get_final_requirements c1 table u d = get_final_requirements c2 table u d := by
  unfold get_final_requirements
  rw [show canonClasses (stringsOfList c1 ++ drawingClasses d) =
      canonClasses (stringsOfList c2 ++ drawingClasses d) from
    canonClasses_eq_of_mem _ _ (by intro s; simp [List.mem_append, h s])]

/-- C8: listing an exposure class twice in the direct selection, once
directly and once nested inside an inner list, or an extra time through the
drawing-derived classes, yields exactly the same Requirement Record
(including the sorted deduplicated provenance) as listing it once. -/
theorem combine_idempotent_duplicates (cs : List Item) (c : String)
    (table : String → Option ClauseReqs) (u : Option UserConstraints)
    (its : List Item) (e : Option DrawingElem) :
    (get_final_requirements (cs ++ [Item.str c, Item.str c]) table u none =
     get_final_requirements (cs ++ [Item.str c]) table u none) ∧
    (get_final_requirements (cs ++ [Item.list [Item.str c]]) table u none =
     get_final_requirements (cs ++ [Item.str c]) table u none) ∧
    (get_final_requirements (cs ++ [Item.str c]) table u
        (some { drawing_exposure_classes := some (its ++ [Item.str c]),
                element_specific_reqs := e }) =
     get_final_requirements (cs ++ [Item.str c]) table u
        (some { drawing_exposure_classes := some its, element_specific_reqs := e })) := by
  refine ⟨?_, ?_, ?_⟩
  · apply gfr_classes_congr
    intro s
    simp [stringsOfList_append, stringsOfList, Item.strings]
  · apply gfr_classes_congr
    intro s
    simp [stringsOfList_append, stringsOfList, Item.strings]
  · have hc : canonClasses (stringsOfList (cs ++ [Item.str c]) ++
          stringsOfList (its ++ [Item.str c])) =
        canonClasses (stringsOfList (cs ++ [Item.str c]) ++ stringsOfList its) := by
      apply canonClasses_eq_of_mem
      intro s
      simp [stringsOfList_append, stringsOfList, Item.strings]
      tauto
    unfold get_final_requirements
    simp only [drawingClasses]
    rw [hc]
    rfl

theorem startsWithChars_self : ∀ l : List Char, startsWithChars l l = true := by
  intro l
  induction l with
  | nil => rfl
  | cons c t ih => simp [startsWithChars, ih]

theorem hasSubChars_suffix (pat : List Char) :
    ∀ xs : List Char, hasSubChars pat (xs ++ pat) = true := by
  intro xs
  induction xs with
  | nil =>
      cases pat with
      | nil => rfl
      | cons c t => simp [hasSubChars, startsWithChars_self]
  | cons x xt ih => simp [hasSubChars, ih]

/- A string contains its own suffix. -/
theorem strContains_append_self (a b : String) : strContains (a ++ b) b = true := by
  unfold strContains
  have h : (a ++ b).toList = a.toList ++ b.toList := by
    simp [String.toList, String.data_append]
  rw [h]
  exact hasSubChars_suffix _ _

/-- C9: load_regulation_file is total over the three states of the file: a
missing file yields the not-found error record, an unparseable file yields
the JSON-decoding error record, a parsed file yields its table; and every
error message it can return names the offending file path. -/
theorem load_regulation_file_reports (fs : String → FileContent) (dir name : String) :
    (fs (regulationFilepath dir name) = FileContent.absent →
      load_regulation_file fs dir name =
        LoadResult.error ("Regulation file not found: " ++ regulationFilepath dir name)) ∧
    (fs (regulationFilepath dir name) = FileContent.malformed →
      load_regulation_file fs dir name =
        LoadResult.error ("Error decoding JSON from " ++ regulationFilepath dir name)) ∧
    (∀ t, fs (regulationFilepath dir name) = FileContent.parsed t →
      load_regulation_file fs dir name = LoadResult.table t) ∧
    (∀ msg, load_regulation_file fs dir name = LoadResult.error msg →
      strContains msg (regulationFilepath dir name) = true) := by
  refine ⟨?_, ?_, ?_, ?_⟩
  · intro h
    simp [load_regulation_file, h]
  · intro h
    simp [load_regulation_file, h]
  · intro t h
    simp [load_regulation_file, h]
  · intro msg hm
    rcases h : fs (regulationFilepath dir name) with _ | _ | t <;>
      simp [load_regulation_file, h] at hm
    · rw [← hm]
      exact strContains_append_self _ _
    · rw [← hm]
      exact strContains_append_self _ _

/-- Witness for C9: a filesystem with no files at all produces the
not-found error record for the EN 206 table. -/
theorem load_regulation_file_reports_witness :
    load_regulation_file (fun _ => FileContent.absent) "regulations_dir" "EN 206" =
      LoadResult.error ("Regulation file not found: " ++
        regulationFilepath "regulations_dir" "EN 206") :=
  (load_regulation_file_reports (fun _ => FileContent.absent) "regulations_dir" "EN 206").1 rfl

/-- C10: a requirement equal to its permissive seed is indistinguishable
from unconstrained: no water/cement finding is produced unless the max_wc
requirement is strictly below 1, no cement finding unless min_cement is
strictly positive, no strength finding unless strength_min_cyl is strictly
positive; the combined max_wc is always capped at the 1.0 seed; and a user
source stating max_w_c_ratio of 1 or more, min_cement_content 0, or
min_mpa_strength 0 leaves the combined Requirement Record (and hence every
verdict) unchanged. -/
theorem seed_values_skipped_and_inert :
    (∀ (m : Metrics) (fr : Reqs), (∀ q, fr.max_wc = some q → 1 ≤ q) →
      ∀ (b : Bool) (w r : Rat),
        Finding.clause ClauseKind.wc b w r ∉ (perform_compliance_check m fr).details) ∧
    (∀ (m : Metrics) (fr : Reqs), (∀ q, fr.min_cement = some q → q ≤ 0) →
      ∀ (b : Bool) (w r : Rat),
        Finding.clause ClauseKind.cement b w r ∉ (perform_compliance_check m fr).details) ∧
    (∀ (m : Metrics) (fr : Reqs), (∀ q, fr.strength_min_cyl = some q → q ≤ 0) →
      ∀ (b : Bool) (w r : Rat),
        Finding.clause ClauseKind.strength b w r ∉
          (perform_compliance_check m fr).details) ∧
    (∀ (classes : List Item) (table : String → Option ClauseReqs)
        (u : Option UserConstraints) (d : Option DrawingReqs),
      ∃ q, (get_final_requirements classes table u d).max_wc = some q ∧ q ≤ 1) ∧
    (∀ (classes : List Item) (table : String → Option ClauseReqs)
        (uc : UserConstraints) (d : Option DrawingReqs) (r : Rat), 1 ≤ r →
      get_final_requirements classes table (some { uc with max_w_c_ratio := some r }) d =
      get_final_requirements classes table (some { uc with max_w_c_ratio := none }) d) ∧
    (∀ (classes : List Item) (table : String → Option ClauseReqs)
        (uc : UserConstraints) (d : Option DrawingReqs),
      get_final_requirements classes table
          (some { uc with min_cement_content := some 0 }) d =
      get_final_requirements classes table
          (some { uc with min_cement_content := none }) d) ∧
    (∀ (classes : List Item) (table : String → Option ClauseReqs)
        (uc : UserConstraints) (d : Option DrawingReqs),
      get_final_requirements classes table
          (some { uc with min_mpa_strength := some 0 }) d =
      get_final_requirements classes table
          (some { uc with min_mpa_strength := none }) d) := by
  refine ⟨?_, ?_, ?_, ?_, ?_, ?_, ?_⟩
  · intro m fr h b w r hmem
    rcases (clause_mem_findings m fr _).1 ((clause_mem_details m fr _ b w r).1 hmem) with
      hc | hc | hc | hc
    · have hp := (checkWc_eq_some_iff m fr b w r).1 hc
      exact absurd hp.2.2.1 (not_lt.2 (h r hp.1))
    · exact absurd (checkCement_kind m fr _ b w r hc) (by simp)
    · exact absurd (checkStrength_kind m fr _ b w r hc) (by simp)
    · exact absurd (checkAggregate_kind m fr _ b w r hc) (by simp)
  · intro m fr h b w r hmem
    rcases (clause_mem_findings m fr _).1 ((clause_mem_details m fr _ b w r).1 hmem) with
      hc | hc | hc | hc
    · exact absurd (checkWc_kind m fr _ b w r hc) (by simp)
    · have hp := (checkCement_eq_some_iff m fr b w r).1 hc
      exact absurd hp.2.2.1 (not_lt.2 (h r hp.1))
    · exact absurd (checkStrength_kind m fr _ b w r hc) (by simp)
    · exact absurd (checkAggregate_kind m fr _ b w r hc) (by simp)
  · intro m fr h b w r hmem
    rcases (clause_mem_findings m fr _).1 ((clause_mem_details m fr _ b w r).1 hmem) with
      hc | hc | hc | hc
    · exact absurd (checkWc_kind m fr _ b w r hc) (by simp)
    · exact absurd (checkCement_kind m fr _ b w r hc) (by simp)
    · have hp := (checkStrength_eq_some_iff m fr b w r).1 hc
      exact absurd hp.2.2.1 (not_lt.2 (h r hp.1))
    · exact absurd (checkAggregate_kind m fr _ b w r hc) (by simp)
  · intro classes table u d
    refine ⟨_, rfl, ?_⟩
    exact le_trans
      (applyUser_stricter (applyDrawing
        ((canonClasses (stringsOfList classes ++ drawingClasses d)).foldl
          (foldClass table) seedReqs) d) u).1
      (le_trans (applyDrawing_stricter _ d).1
        (foldl_foldClass_stricter table _ seedReqs).1)
  · intro classes table uc d r hr
    have hcap : (applyDrawing ((canonClasses (stringsOfList classes ++
        drawingClasses d)).foldl (foldClass table) seedReqs) d).max_wc ≤ 1 :=
      le_trans (applyDrawing_stricter _ d).1 (foldl_foldClass_stricter table _ seedReqs).1
    unfold get_final_requirements
    simp only [applyUser, tightenMax, tightenMin, tightenMaxInf]
    rw [min_eq_left (le_trans hcap hr)]
  · intro classes table uc d
    have hcap : 0 ≤ (applyDrawing ((canonClasses (stringsOfList classes ++
        drawingClasses d)).foldl (foldClass table) seedReqs) d).min_cement :=
      le_trans (foldl_foldClass_stricter table _ seedReqs).2.1
        (applyDrawing_stricter _ d).2.1
    unfold get_final_requirements
    simp only [applyUser, tightenMax, tightenMin, tightenMaxInf]
    rw [max_eq_left hcap]
  · intro classes table uc d
    have hcap : 0 ≤ (applyDrawing ((canonClasses (stringsOfList classes ++
        drawingClasses d)).foldl (foldClass table) seedReqs) d).strength_min_cyl :=
      le_trans (foldl_foldClass_stricter table _ seedReqs).2.2.1
        (applyDrawing_stricter _ d).2.2.1
    unfold get_final_requirements
    simp only [applyUser, tightenMax, tightenMin, tightenMaxInf]
    rw [max_eq_left hcap]

/-- Witness for C10 at the seed-valued requirement record and the XC4
scenario table. -/
theorem seed_values_skipped_and_inert_witness :
    (Finding.clause ClauseKind.wc true 0 1 ∉
      (perform_compliance_check mNone frSeed).details) ∧
    (Finding.clause ClauseKind.cement true 0 0 ∉
      (perform_compliance_check mNone frSeed).details) ∧
    (Finding.clause ClauseKind.strength true 0 0 ∉
      (perform_compliance_check mNone frSeed).details) ∧
    (get_final_requirements [Item.str "XC4"] table1
        (some { max_w_c_ratio := some 2, min_cement_content := none,
                min_mpa_strength := none, max_aggregate_size := none }) none =
      get_final_requirements [Item.str "XC4"] table1
        (some { max_w_c_ratio := none, min_cement_content := none,
                min_mpa_strength := none, max_aggregate_size := none }) none) ∧
    (get_final_requirements [Item.str "XC4"] table1
        (some { max_w_c_ratio := none, min_cement_content := some 0,
                min_mpa_strength := none, max_aggregate_size := none }) none =
      get_final_requirements [Item.str "XC4"] table1
        (some { max_w_c_ratio := none, min_cement_content := none,
                min_mpa_strength := none, max_aggregate_size := none }) none) ∧
    (get_final_requirements [Item.str "XC4"] table1
        (some { max_w_c_ratio := none, min_cement_content := none,
                min_mpa_strength := some 0, max_aggregate_size := none }) none =
      get_final_requirements [Item.str "XC4"] table1
        (some { max_w_c_ratio := none, min_cement_content := none,
                min_mpa_strength := none, max_aggregate_size := none }) none) :=
  ⟨seed_values_skipped_and_inert.1 mNone frSeed
      (fun q hq => le_of_eq (Option.some.inj hq)) true 0 1,
   seed_values_skipped_and_inert.2.1 mNone frSeed
      (fun q hq => le_of_eq (Option.some.inj hq).symm) true 0 0,
   seed_values_skipped_and_inert.2.2.1 mNone frSeed
      (fun q hq => le_of_eq (Option.some.inj hq).symm) true 0 0,
   seed_values_skipped_and_inert.2.2.2.2.1 [Item.str "XC4"] table1
      { max_w_c_ratio := none, min_cement_content := none,
        min_mpa_strength := none, max_aggregate_size := none } none 2 (by norm_num),
   seed_values_skipped_and_inert.2.2.2.2.2.1 [Item.str "XC4"] table1
      { max_w_c_ratio := none, min_cement_content := none,
        min_mpa_strength := none, max_aggregate_size := none } none,
   seed_values_skipped_and_inert.2.2.2.2.2.2 [Item.str "XC4"] table1
      { max_w_c_ratio := none, min_cement_content := none,
        min_mpa_strength := none, max_aggregate_size := none } none⟩
